import Mathlib

/-!
Verification of the pllua nested composite-value projection engine
(spec sections 3-4 and 8; regression transcript src/unnamed/part_001)
and of the trusted-interpreter wrappers in src/trusted.c.

The projection engine itself (lazy deform, copy-on-write explode/flatten,
dropped-attribute handling) is modelled from the spec, since only its
regression-test transcript is in the sources; the transcript is used as
ground truth for the observable behaviour.  The trusted.c functions are
embedded directly from the C source.
-/

namespace Pllua

/-- Modelled from the spec: a Value is an opaque host-encoded byte span plus
its type id, "the ground truth at rest".  The Codec is external and assumed
stable and re-encodable, so we represent a Value by its decoded shape: a
scalar leaf (carrying its textual content), or the physical sequence of
sub-values of an encoded record or array.  Byte-equality of Values is
equality of this representation. -/
inductive Value where
  | scalar (s : String)
  | vrec (elems : List Value)
  | varr (elems : List Value)

/-- Modelled from the spec: a TypeDescriptor is Scalar, Array(element type)
or Record(ordered attribute list); an attribute has a name, a dropped flag
and a type.  Descriptors are acyclic (enforced upstream), so we fold the
catalog lookup into a directly recursive tree.  The physical index of an
attribute is its position in the full list, dropped attributes included. -/
inductive TypeDesc where
  | scalar : TypeDesc
  | array (elem : TypeDesc) : TypeDesc
  | record (attrs : List (String × Bool × TypeDesc)) : TypeDesc

/-- Whether a deformed node reassembles as a record or as an array. -/
inductive CompKind where
  | krec : CompKind
  | karr : CompKind

/-- Modelled from the spec: a ProjectionNode is Folded(value) or
Deformed(slots), one slot per physical attribute or element.  The slot union of the spec:
 Folded(sub-value) | Scalar(leaf) | Node(child) is folded into
the node type itself: a slot is a Folded node, a decoded/written leaf, or
a materialized child subtree. -/
inductive PNode where
  | folded (v : Value)
  | leaf (v : Value)
  | deformed (k : CompKind) (slots : List PNode)

/-- Modelled from the spec error taxonomy (section 7). -/
inductive Err where
  | NoSuchAttribute
  | IndexOutOfRange
  | TypeMismatch
  | NotDecomposable
  | CodecError
  deriving DecidableEq

/-- An access key: a logical attribute name for records, a 1-based index
for arrays. -/
inductive Key where
  | name (s : String)
  | idx (i : Int)

mutual
/-- Modelled from the spec: flatten re-synthesizes a node into one Value.
A Folded node returns its value unchanged; a leaf slot encodes its value;
a Deformed node reassembles all slot contributions in physical order,
flattening child subtrees depth-first. -/
def flatten : PNode → Value
  | .folded v => v
  | .leaf v => v
  | .deformed .krec slots => .vrec (flattenList slots)
  | .deformed .karr slots => .varr (flattenList slots)

/-- Flatten every slot of a deformed node, in physical order. -/
def flattenList : List PNode → List Value
  | [] => []
  | n :: ns => flatten n :: flattenList ns
end

/-- A freshly decoded slot: scalar-typed slots are decoded to leaves,
composite slots stay Folded (laziness is strictly one level per call). -/
def mkSlot (ed : TypeDesc) (v : Value) : PNode :=
  match ed with
  | .scalar => .leaf v
  | _ => .folded v

/-- Slots of a freshly deformed record: one per physical attribute,
dropped attributes included (their content is kept, never exposed). -/
def mkSlots : List (String × Bool × TypeDesc) → List Value → List PNode
  | [], _ => []
  | _ :: _, [] => []
  | (_, _, t) :: as, v :: vs => mkSlot t v :: mkSlots as vs

/-- Modelled from the spec: one-level lazy decomposition of a Folded node
into slots.  Deforming a scalar-typed node is NotDecomposable; a value
whose shape disagrees with its descriptor is a CodecError; deform of an
already-Deformed node is a no-op returning the same node. -/
def deform : TypeDesc → PNode → Except Err PNode
  | .scalar, .folded _ => .error .NotDecomposable
  | .record attrs, .folded (.vrec elems) =>
      if elems.length = attrs.length
      then .ok (.deformed .krec (mkSlots attrs elems))
      else .error .CodecError
  | .array ed, .folded (.varr elems) =>
      .ok (.deformed .karr (elems.map (mkSlot ed)))
  | _, .folded _ => .error .CodecError
  | _, .deformed k slots => .ok (.deformed k slots)
  | _, .leaf _ => .error .NotDecomposable

/-- The Dropped-Attribute Mapper: logical name to physical index.  Dropped
attributes are invisible to name lookup. -/
def findAttr (s : String) : List (String × Bool × TypeDesc) → Nat → Option (Nat × TypeDesc)
  | [], _ => none
  | (n, dropped, t) :: as, i =>
      if dropped = false ∧ n = s then some (i, t) else findAttr s as (i + 1)

/-- Number of physical slots currently held by a node. -/
def nodeLen : PNode → Nat
  | .folded (.vrec es) => es.length
  | .folded (.varr es) => es.length
  | .deformed _ slots => slots.length
  | _ => 0

/-- Resolve an access key against a descriptor.  Record names go through
the Dropped-Attribute Mapper (NoSuchAttribute for unknown or dropped
names).  Array indices are 1-based; an out-of-range index resolves to
`none`: per the regression transcript (src/unnamed/part_001, the
`r.col2.thingy[3]` read printing `nil` on a 2-element array), an
out-of-range read yields nil rather than an error, while writes through
an unresolved index fail IndexOutOfRange. -/
def resolveKey : TypeDesc → Nat → Key → Except Err (Option (Nat × TypeDesc))
  | .record attrs, _, .name s =>
      match findAttr s attrs 0 with
      | some it => .ok (some it)
      | none => .error .NoSuchAttribute
  | .record _, _, .idx _ => .error .NoSuchAttribute
  | .array ed, len, .idx i =>
      if 1 ≤ i ∧ i ≤ (len : Int) then .ok (some ((i - 1).toNat, ed))
      else .ok none
  | .array _, _, .name _ => .error .NoSuchAttribute
  | .scalar, _, _ => .error .NotDecomposable

/-- Default slot used only for impossible out-of-bounds accesses. -/
def dfltSlot : PNode := .leaf (.scalar "")

/-- Modelled from the spec: read along a path of keys.  The node deforms
one level as needed; intermediate children are materialized into their
parent slot (the returned node), so later accesses reuse them.  A read
of the node itself returns its (flattened) value; an unresolved array
index reads as nil (`none`). -/
def getPath : TypeDesc → PNode → List Key → Except Err (Option Value × PNode)
  | _, n, [] => .ok (some (flatten n), n)
  | d, n, key :: ks =>
    match resolveKey d (nodeLen n) key with
    | .error e => .error e
    | .ok none => .ok (none, n)
    | .ok (some (i, td)) =>
      match deform d n with
      | .error e => .error e
      | .ok (.deformed ck slots) =>
        match ks with
        | [] => .ok (some (flatten (slots.getD i dfltSlot)), .deformed ck slots)
        | _ :: _ =>
          match getPath td (slots.getD i dfltSlot) ks with
          | .error e => .error e
          | .ok (r, s') => .ok (r, .deformed ck (slots.set i s'))
      | .ok _ => .error .CodecError

/-- Shape compatibility of an assigned value with the declared type of a slot. -/
def compatible : TypeDesc → Value → Bool
  | .scalar, .scalar _ => true
  | .array _, .varr _ => true
  | .record attrs, .vrec es => es.length == attrs.length
  | _, _ => false

/-- A written slot: Scalar(newValue) for a leaf, Node(subtree) for a
record/array-shaped value (the subtree becomes exclusively owned). -/
def writtenSlot (w : Value) : PNode :=
  match w with
  | .scalar _ => .leaf w
  | _ => .folded w

/-- Modelled from the spec: write along a path of keys, deforming Folded
nodes along the path as needed (and nothing else).  The final slot is
replaced after a shape check; a write through an unresolved array index
fails IndexOutOfRange. -/
def setPath : TypeDesc → PNode → List Key → Value → Except Err PNode
  | _, _, [], _ => .error .TypeMismatch
  | d, n, key :: ks, w =>
    match resolveKey d (nodeLen n) key with
    | .error e => .error e
    | .ok none => .error .IndexOutOfRange
    | .ok (some (i, td)) =>
      match deform d n with
      | .error e => .error e
      | .ok (.deformed ck slots) =>
        match ks with
        | [] =>
          if compatible td w
          then .ok (.deformed ck (slots.set i (writtenSlot w)))
          else .error .TypeMismatch
        | _ :: _ =>
          match setPath td (slots.getD i dfltSlot) ks w with
          | .error e => .error e
          | .ok s' => .ok (.deformed ck (slots.set i s'))
      | .ok _ => .error .CodecError

/-- Placeholder contribution of a dropped-attribute slot on fresh
construction (null-filled; opaque Codec contract). -/
def placeholder : Value := .scalar ""

/-- Slots of a freshly constructed record: logical arguments in logical
order mapped to physical order, dropped slots pre-filled with the
placeholder; the argument count must match the live-attribute count. -/
def constructSlots : List (String × Bool × TypeDesc) → List Value → Except Err (List PNode)
  | [], [] => .ok []
  | [], _ :: _ => .error .TypeMismatch
  | (_, true, _) :: as, args =>
      match constructSlots as args with
      | .error e => .error e
      | .ok rest => .ok (.folded placeholder :: rest)
  | (_, false, _) :: _, [] => .error .TypeMismatch
  | (_, false, t) :: as, a :: args =>
      if compatible t a then
        match constructSlots as args with
        | .error e => .error e
        | .ok rest => .ok (writtenSlot a :: rest)
      else .error .TypeMismatch

/-- Modelled from the spec: build a new Deformed node from caller-supplied
logical field values (section 4.5). -/
def construct (d : TypeDesc) (args : List Value) : Except Err PNode :=
  match d with
  | .record attrs =>
      match constructSlots attrs args with
      | .error e => .error e
      | .ok slots => .ok (.deformed .krec slots)
  | .array ed =>
      if args.all (compatible ed)
      then .ok (.deformed .karr (args.map writtenSlot))
      else .error .TypeMismatch
  | .scalar => .error .NotDecomposable

/-- Reprojection: pass the flattened Value of a node to the type constructor
(the transcript form `pgtype.ntype4(r)`), giving a fresh Folded node. -/
def reproject (n : PNode) : PNode := .folded (flatten n)

/-- Whether an engine operation succeeded. -/
def exceptOk {α : Type} : Except Err α → Bool
  | .ok _ => true
  | .error _ => false

/-- Double every quote and backslash, as the host record/array output
does inside a quoted item. -/
def escapeQuotes (s : String) : String :=
  String.join (s.toList.map (fun c =>
    if c == '"' || c == '\\' then String.mk [c, c] else String.mk [c]))

/-- Characters forcing a record field to be quoted in the host textual
record output. -/
def recSpecial (c : Char) : Bool :=
  c == '"' || c == '\\' || c == '(' || c == ')' || c == ',' || c == ' ' || c == '\t' || c == '\n'

/-- Quote a record field for textual output when needed. -/
def quoteField (s : String) : String :=
  if s.isEmpty || s.toList.any recSpecial then "\"" ++ escapeQuotes s ++ "\"" else s

/-- Characters forcing an array element to be quoted in the host textual
array output. -/
def arrSpecial (c : Char) : Bool :=
  c == '"' || c == '\\' || c == '\x7b' || c == '\x7d' || c == ',' || c == ' '

/-- Quote an array element for textual output when needed. -/
def quoteElem (s : String) : String :=
  if s.isEmpty || s.toList.any arrSpecial then "\"" ++ escapeQuotes s ++ "\"" else s

mutual
/-- The host textual rendering of a fully resolved Value: records print
their live fields (dropped attributes are skipped) in parentheses, arrays
print their elements in braces, with host-style quoting. -/
def printValue : TypeDesc → Value → String
  | .scalar, .scalar s => s
  | .array ed, .varr es =>
      "\x7b" ++ String.intercalate "," (printElems ed es) ++ "\x7d"
  | .record attrs, .vrec es =>
      "(" ++ String.intercalate "," (printFields attrs es) ++ ")"
  | _, _ => "?"

/-- Rendered elements of an array value. -/
def printElems : TypeDesc → List Value → List String
  | _, [] => []
  | ed, e :: es => quoteElem (printValue ed e) :: printElems ed es

/-- Rendered live fields of a record value; dropped attributes never
appear in the output. -/
def printFields : List (String × Bool × TypeDesc) → List Value → List String
  | [], _ => []
  | _ :: _, [] => []
  | (_, true, _) :: as, _ :: es => printFields as es
  | (_, false, t) :: as, e :: es => quoteField (printValue t e) :: printFields as es
end

/-- Rendering of a read result: `nil` for an absent value, as the
scripting layer prints it. -/
def printRead : TypeDesc → Option Value → String
  | _, none => "nil"
  | d, some v => printValue d v

/-! Concrete types and values of the regression transcript
(src/unnamed/part_001): `create type ntype1 as (fred integer, jim
numeric)` and its nestings, and table ntab1 after `drop column sheila`. -/

/-- Descriptor of ntype1: (fred integer, jim numeric). -/
def ntype1d : TypeDesc := .record [("fred", false, .scalar), ("jim", false, .scalar)]

/-- Descriptor of text[]. -/
def textArrD : TypeDesc := .array .scalar

/-- Descriptor of ntype2: (thingy text[], wotsit ntype1). -/
def ntype2d : TypeDesc := .record [("thingy", false, textArrD), ("wotsit", false, ntype1d)]

/-- Descriptor of ntype3: (foo text, bar ntype1, baz ntype2). -/
def ntype3d : TypeDesc := .record [("foo", false, .scalar), ("bar", false, ntype1d), ("baz", false, ntype2d)]

/-- Descriptor of ntype4: (col0 text, col1 ntype1, col2 ntype2, col3 ntype3). -/
def ntype4d : TypeDesc :=
  .record [("col0", false, .scalar), ("col1", false, ntype1d),
           ("col2", false, ntype2d), ("col3", false, ntype3d)]

/-- Descriptor of ntab1 after `alter table ntab1 drop column sheila`:
sheila keeps its physical slot but is flagged dropped. -/
def ntab1d : TypeDesc :=
  .record [("fred", false, .scalar), ("sheila", true, .scalar), ("jim", false, .scalar)]

/-- A two-scalar record value, as ntype1 values materialize. -/
def pair (a b : String) : Value := .vrec [.scalar a, .scalar b]

/-- The transcript value r0: ntype4("zzz", (1,2), ({a,b,c},(3,4)),
("abcde",(5,6),({x,y,z},(7,8)))). -/
def r0v : Value :=
  .vrec [.scalar "zzz", pair "1" "2",
    .vrec [.varr [.scalar "a", .scalar "b", .scalar "c"], pair "3" "4"],
    .vrec [.scalar "abcde", pair "5" "6",
      .vrec [.varr [.scalar "x", .scalar "y", .scalar "z"], pair "7" "8"]]]

/-- The path r.col3.baz.wotsit.jim of the transcript. -/
def jimPath : List Key := [.name "col3", .name "baz", .name "wotsit", .name "jim"]

/-! Embedding of src/trusted.c: the sandboxed `load` wrapper
(pllua_t_load) and the sandboxed `require` (pllua_t_require). -/

/-- A Lua value as far as the trusted.c wrappers inspect one: nil, a
string, a boolean, or an opaque table/function identified by a tag. -/
inductive LV where
  | vnil
  | vstr (s : String)
  | vbool (b : Bool)
  | vtable (id : Nat)
  | vfun (id : Nat)
  deriving DecidableEq

/-- lua_settop(L, 3) on a stack of fewer than four values: pad with nil
up to exactly three entries. -/
def setTop3 (st : List LV) : List LV :=
  [st.getD 0 .vnil, st.getD 1 .vnil, st.getD 2 .vnil]

/-- The argument list pllua_t_load (src/trusted.c lines 45-60) forwards
to the global `load`: with fewer than four caller arguments it pads the
stack to three, pushes the trusted sandbox table as the fourth value,
and in all cases overwrites stack slot 3 (the mode) with the string "t"
before punting to _G.load. -/
def pllua_t_load (sandbox : LV) (args : List LV) : List LV :=
  if args.length < 4 then
    (setTop3 args ++ [sandbox]).set 2 (.vstr "t")
  else
    args.set 2 (.vstr "t")

/-- lua_getfield on a table modelled as an association list: nil when the
key is absent. -/
def tget : List (String × LV) → String → LV
  | [], _ => .vnil
  | (k', v) :: rest, k => if k' = k then v else tget rest k

/-- lua_setfield on a table modelled as an association list. -/
def tset : List (String × LV) → String → LV → List (String × LV)
  | [], k, v => [(k, v)]
  | (k', v') :: rest, k, v =>
      if k' = k then (k, v) :: rest else (k', v') :: tset rest k v

/-- lua_toboolean: everything is truthy except nil and false. -/
def truthy : LV → Bool
  | .vnil => false
  | .vbool false => false
  | _ => true

/-- Outcome of one sandboxed require call: returned value, updated LOADED
table, and whether the searcher/loader machinery ran at all. -/
structure RequireResult where
  ret : LV
  loaded : List (String × LV)
  loaderRan : Bool
  deriving DecidableEq

/-- pllua_t_require (src/trusted.c lines 68-90): if LOADED[name] is
truthy it is returned at once; otherwise the loader found through
package.searchers runs (abstracted here as the oracle `loader`, covering
pllua_t_require_findloader plus the loader call), its result replaces nil
by true, and is stored in LOADED[name] before being returned. -/
def pllua_t_require (loaded : List (String × LV)) (loader : String → LV)
    (name : String) : RequireResult :=
  let cached := tget loaded name
  if truthy cached then
    ⟨cached, loaded, false⟩
  else
    let res := loader name
    let res' := if res = .vnil then .vbool true else res
    ⟨res', tset loaded name res', true⟩

/-! Lemmas: deform and read-only access preserve the flattened value. -/

theorem flatten_mkSlot (ed : TypeDesc) (v : Value) : flatten (mkSlot ed v) = v := by
  cases ed <;> rfl

theorem flattenList_mkSlots :
    ∀ (attrs : List (String × Bool × TypeDesc)) (elems : List Value),
      elems.length = attrs.length → flattenList (mkSlots attrs elems) = elems
  | [], [], _ => rfl
  | [], _ :: _, h => by simp at h
  | _ :: _, [], h => by simp at h
  | (n, dr, t) :: as, v :: vs, h => by
      simp only [mkSlots, flattenList, flatten_mkSlot]
      rw [flattenList_mkSlots as vs (by simpa using h)]

theorem flattenList_map_mkSlot (ed : TypeDesc) :
    ∀ es : List Value, flattenList (es.map (mkSlot ed)) = es
  | [] => rfl
  | v :: vs => by
      simp only [List.map, flattenList, flatten_mkSlot]
      rw [flattenList_map_mkSlot ed vs]

/-- Deform never changes the value a node flattens to. -/
theorem deform_flatten {d : TypeDesc} {n n' : PNode}
    (h : deform d n = .ok n') : flatten n' = flatten n := by
  cases d with
  | scalar => cases n with
    | folded v => exact absurd h (by simp [deform])
    | leaf v => exact absurd h (by simp [deform])
    | deformed k slots => simp only [deform] at h; cases h; rfl
  | array ed => cases n with
    | folded v =>
        cases v with
        | scalar s => exact absurd h (by simp [deform])
        | vrec es => exact absurd h (by simp [deform])
        | varr es =>
            simp only [deform] at h; cases h
            simp [flatten, flattenList_map_mkSlot]
    | leaf v => exact absurd h (by simp [deform])
    | deformed k slots => simp only [deform] at h; cases h; rfl
  | record attrs => cases n with
    | folded v =>
        cases v with
        | scalar s => exact absurd h (by simp [deform])
        | vrec es =>
            simp only [deform] at h
            by_cases hl : es.length = attrs.length
            · rw [if_pos hl] at h; cases h
              simp [flatten, flattenList_mkSlots attrs es hl]
            · rw [if_neg hl] at h; exact absurd h (by simp)
        | varr es => exact absurd h (by simp [deform])
    | leaf v => exact absurd h (by simp [deform])
    | deformed k slots => simp only [deform] at h; cases h; rfl

/-- Replacing a slot by one with the same flattened value leaves the
flattened slot sequence unchanged. -/
theorem flattenList_set :
    ∀ (slots : List PNode) (i : Nat) (x : PNode),
      flatten x = flatten (slots.getD i dfltSlot) →
      flattenList (slots.set i x) = flattenList slots
  | [], _, _, _ => rfl
  | s :: ss, 0, x, h => by
      simp only [List.getD, List.getElem?_cons_zero, Option.getD_some] at h
      simp [List.set, flattenList, h]
  | s :: ss, i + 1, x, h => by
      simp only [List.getD, List.getElem?_cons_succ] at h
      simp only [List.set, flattenList]
      rw [flattenList_set ss i x (by simpa [List.getD] using h)]

/-- Read-only access to any depth never changes the value a node
flattens to, whatever intermediate materialization it causes. -/
theorem getPath_flatten :
    ∀ (ks : List Key) (d : TypeDesc) (n : PNode) (r : Option Value) (n' : PNode),
      getPath d n ks = .ok (r, n') → flatten n' = flatten n := by
  intro ks
  induction ks with
  | nil =>
      intro d n r n' h
      simp only [getPath, Except.ok.injEq, Prod.mk.injEq] at h
      obtain ⟨-, h2⟩ := h
      subst h2; rfl
  | cons key ks ih =>
      intro d n r n' h
      simp only [getPath] at h
      split at h
      · exact Except.noConfusion h
      · simp only [Except.ok.injEq, Prod.mk.injEq] at h
        obtain ⟨-, h2⟩ := h
        subst h2; rfl
      · rename_i i td _
        split at h
        · exact Except.noConfusion h
        · rename_i ck slots hde
          split at h
          · simp only [Except.ok.injEq, Prod.mk.injEq] at h
            obtain ⟨-, h2⟩ := h
            subst h2
            exact deform_flatten hde
          · split at h
            · exact Except.noConfusion h
            · rename_i r2 s' hrec
              simp only [Except.ok.injEq, Prod.mk.injEq] at h
              obtain ⟨-, h2⟩ := h
              subst h2
              have hs := ih td (slots.getD i dfltSlot) r2 s' hrec
              have hd := deform_flatten hde
              cases ck with
              | krec =>
                  simp only [flatten] at hd ⊢
                  rw [flattenList_set slots i s' hs]; exact hd
              | karr =>
                  simp only [flatten] at hd ⊢
                  rw [flattenList_set slots i s' hs]; exact hd
        · exact Except.noConfusion h

/-- Content of a read without the updated node. -/
def readValue (d : TypeDesc) (n : PNode) (p : List Key) : Except Err (Option Value) :=
  match getPath d n p with
  | .error e => .error e
  | .ok (r, _) => .ok r

/-- Sequence a write after a previous engine operation. -/
def setChain (d : TypeDesc) (r : Except Err PNode) (p : List Key) (w : Value) :
    Except Err PNode :=
  match r with
  | .error e => .error e
  | .ok n => setPath d n p w

/-- Transcript line INFO output for the unmodified r0
(src/unnamed/part_001 line 104). -/
def line104 : String := "(zzz,\"(1,2)\",\"(\"\"\x7ba,b,c\x7d\"\",\"\"(3,4)\"\")\",\"(abcde,\"\"(5,6)\"\",\"\"(\"\"\"\"\x7bx,y,z\x7d\"\"\"\",\"\"\"\"(7,8)\"\"\"\")\"\")\")"

/-- Printed form after only r.col3.baz.wotsit.jim = 10 (spec section 8). -/
def lineAfterJim : String := "(zzz,\"(1,2)\",\"(\"\"\x7ba,b,c\x7d\"\",\"\"(3,4)\"\")\",\"(abcde,\"\"(5,6)\"\",\"\"(\"\"\"\"\x7bx,y,z\x7d\"\"\"\",\"\"\"\"(7,10)\"\"\"\")\"\")\")"

/-- Transcript line INFO output after the explode-from-middle writes
(src/unnamed/part_001 line 108). -/
def line108 : String := "(zzz,\"(-1,2)\",\"(\"\"\x7ba,b,c\x7d\"\",\"\"(3,4)\"\")\",\"(edcba,\"\"(5,6)\"\",\"\"(\"\"\"\"\x7bx,y,z\x7d\"\"\"\",\"\"\"\"(0,80)\"\"\"\")\"\")\")"

/-- r0 after only the write r.col3.baz.wotsit.jim = 10: every sibling
component is syntactically the one of r0v. -/
def r0v10 : Value :=
  .vrec [.scalar "zzz", pair "1" "2",
    .vrec [.varr [.scalar "a", .scalar "b", .scalar "c"], pair "3" "4"],
    .vrec [.scalar "abcde", pair "5" "6",
      .vrec [.varr [.scalar "x", .scalar "y", .scalar "z"], pair "7" "10"]]]

/-- r0 after the explode-from-middle writes (col3.foo = edcba,
col1.fred = -1, col3.baz.wotsit.jim = 80, col3.baz.wotsit.fred = 0). -/
def r8v : Value :=
  .vrec [.scalar "zzz", pair "-1" "2",
    .vrec [.varr [.scalar "a", .scalar "b", .scalar "c"], pair "3" "4"],
    .vrec [.scalar "edcba", pair "5" "6",
      .vrec [.varr [.scalar "x", .scalar "y", .scalar "z"], pair "0" "80"]]]

/-- C1: for any Value v and two independently constructed projection
nodes over v, mutating one via set and then flattening it leaves the
flatten of the other unchanged and byte-equal to v; concretely, after the
transcript write r.col3.baz.wotsit.jim = 10 succeeds on one node over
r0, a fresh node over r0 still flattens to r0 and prints the original
line while the mutated one prints differently. -/
theorem c1_isolation :
    (∀ (d : TypeDesc) (v w : Value) (ks : List Key),
        exceptOk (setPath d (.folded v) ks w) = true →
        flatten (PNode.folded v) = v)
    ∧ (setChain ntype4d (.ok (.folded r0v)) jimPath (.scalar "10")).map flatten = .ok r0v10
    ∧ flatten (PNode.folded r0v) = r0v
    ∧ printValue ntype4d (flatten (PNode.folded r0v)) = line104
    ∧ printValue ntype4d r0v10 ≠ printValue ntype4d r0v :=
  ⟨fun _ _ _ _ _ => rfl, rfl, rfl, rfl, by decide⟩

/-- Closed instance of C1 at the transcript input. -/
theorem c1_isolation_witness :
    exceptOk (setPath ntype4d (.folded r0v) jimPath (.scalar "10")) = true
    ∧ flatten (PNode.folded r0v) = r0v :=
  ⟨rfl, c1_isolation.1 ntype4d r0v (.scalar "10") jimPath rfl⟩

/-- C2: deforming a projection of v to any depth without any write
(i.e. any successful read path) and then flattening yields a value
byte-identical to v; in particular flatten of a still-Folded node
returns v unchanged. -/
theorem c2_roundtrip :
    (∀ (d : TypeDesc) (v : Value) (ks : List Key) (r : Option Value) (n' : PNode),
        getPath d (.folded v) ks = .ok (r, n') → flatten n' = v)
    ∧ ∀ v : Value, flatten (PNode.folded v) = v :=
  ⟨fun d v ks r n' h => getPath_flatten ks d (.folded v) r n' h, fun _ => rfl⟩

/-- Closed instance of C2 at a concrete deformed read. -/
theorem c2_roundtrip_witness :
    getPath ntype1d (.folded (pair "1" "2")) [.name "fred"]
      = .ok (some (.scalar "1"), .deformed .krec [.leaf (.scalar "1"), .leaf (.scalar "2")])
    ∧ flatten (.deformed .krec [.leaf (.scalar "1"), .leaf (.scalar "2")]) = pair "1" "2" :=
  ⟨rfl, c2_roundtrip.1 ntype1d (pair "1" "2") [.name "fred"] (some (.scalar "1"))
    (.deformed .krec [.leaf (.scalar "1"), .leaf (.scalar "2")]) rfl⟩

/-- C3: writing r.col3.baz.wotsit.jim = 10 on a node over the ntype4
value with fred=7, jim=8 at that path and flattening produces a value
printing jim=10 at that path ("(7,10)"), with every sibling path reading
byte-identically to before the write. -/
theorem c3_deep_write :
    printValue ntype4d r0v = line104
    ∧ (setChain ntype4d (.ok (.folded r0v)) jimPath (.scalar "10")).map flatten = .ok r0v10
    ∧ printValue ntype4d r0v10 = lineAfterJim
    ∧ readValue ntype4d (.folded r0v10) [.name "col0"]
        = readValue ntype4d (.folded r0v) [.name "col0"]
    ∧ readValue ntype4d (.folded r0v10) [.name "col1"]
        = readValue ntype4d (.folded r0v) [.name "col1"]
    ∧ readValue ntype4d (.folded r0v10) [.name "col2"]
        = readValue ntype4d (.folded r0v) [.name "col2"]
    ∧ readValue ntype4d (.folded r0v10) [.name "col3", .name "foo"]
        = readValue ntype4d (.folded r0v) [.name "col3", .name "foo"]
    ∧ readValue ntype4d (.folded r0v10) [.name "col3", .name "bar"]
        = readValue ntype4d (.folded r0v) [.name "col3", .name "bar"]
    ∧ readValue ntype4d (.folded r0v10) [.name "col3", .name "baz", .name "thingy"]
        = readValue ntype4d (.folded r0v) [.name "col3", .name "baz", .name "thingy"]
    ∧ readValue ntype4d (.folded r0v10) [.name "col3", .name "baz", .name "wotsit", .name "fred"]
        = readValue ntype4d (.folded r0v) [.name "col3", .name "baz", .name "wotsit", .name "fred"] :=
  ⟨rfl, rfl, rfl, rfl, rfl, rfl, rfl, rfl, rfl, rfl⟩

/-- C4: flattening a node, reprojecting the resulting Value, and
flattening again gives the same Value as flatten(n), for every node n,
dirty or clean; the printed renderings also agree. -/
theorem c4_flatten_idempotent (n : PNode) (d : TypeDesc) :
    flatten (reproject n) = flatten n
    ∧ printValue d (flatten (reproject n)) = printValue d (flatten n) :=
  ⟨rfl, rfl⟩

/-- The scalar pair constructed/deformed node of the ntype1 test. -/
def n12 : PNode := .deformed .krec [.leaf (.scalar "1"), .leaf (.scalar "2")]

/-- The node after assigning fred=3. -/
def n32 : PNode := .deformed .krec [.leaf (.scalar "3"), .leaf (.scalar "2")]

/-- The node after further assigning jim=4. -/
def n34 : PNode := .deformed .krec [.leaf (.scalar "3"), .leaf (.scalar "4")]

/-- C5: construct(ntype1,1,2) reads fred=1, jim=2; after fred=3 a
re-read gives fred=3, jim=2; after jim=4 flatten prints (3,4); the same
holds whether the first write happens after a read (explode after
deform) or before any read (explode before deform). -/
theorem c5_scalar_pair :
    construct ntype1d [.scalar "1", .scalar "2"] = .ok n12
    ∧ getPath ntype1d (.folded (pair "1" "2")) [.name "fred"] = .ok (some (.scalar "1"), n12)
    ∧ getPath ntype1d n12 [.name "jim"] = .ok (some (.scalar "2"), n12)
    ∧ setPath ntype1d n12 [.name "fred"] (.scalar "3") = .ok n32
    ∧ getPath ntype1d n32 [.name "fred"] = .ok (some (.scalar "3"), n32)
    ∧ getPath ntype1d n32 [.name "jim"] = .ok (some (.scalar "2"), n32)
    ∧ setPath ntype1d n32 [.name "jim"] (.scalar "4") = .ok n34
    ∧ setPath ntype1d (.folded (pair "1" "2")) [.name "fred"] (.scalar "3") = .ok n32
    ∧ flatten n34 = pair "3" "4"
    ∧ printValue ntype1d (flatten n34) = "(3,4)" :=
  ⟨rfl, rfl, rfl, rfl, rfl, rfl, rfl, rfl, rfl, rfl⟩

/-- The two-element text array of the ntab2 rows ({x,y}). -/
def thingyXY : Value := .varr [.scalar "x", .scalar "y"]

/-- C6 counterexample: a get with 1-based index 3 on a 2-element array
node succeeds with a nil result instead of failing IndexOutOfRange,
exactly as transcript line 210 prints nil for r.col2.thingy[3]. -/
theorem c6_counterexample :
    getPath textArrD (.folded thingyXY) [.idx 3] = .ok (none, .folded thingyXY)
    ∧ getPath textArrD (.folded thingyXY) [.idx 3] ≠ .error .IndexOutOfRange := by
  refine ⟨rfl, fun h => ?_⟩
  rw [show getPath textArrD (.folded thingyXY) [.idx 3]
        = .ok (none, .folded thingyXY) from rfl] at h
  exact Except.noConfusion h

/-- C6 amended: for every Array-typed node, whatever its state, a get
with a 1-based index outside [1, length] succeeds with a nil (absent)
result and leaves the node unchanged; it does not fail with
IndexOutOfRange. -/
theorem c6_amended (ed : TypeDesc) (n : PNode) (i : Int)
    (h : ¬(1 ≤ i ∧ i ≤ (nodeLen n : Int))) :
    getPath (.array ed) n [.idx i] = .ok (none, n) := by
  simp [getPath, resolveKey, h]

/-- Closed instance of C6 amended at the transcript thingy[3] read. -/
theorem c6_amended_witness :
    ¬(1 ≤ (3 : Int) ∧ (3 : Int) ≤ (nodeLen (.folded (.varr [.scalar "x", .scalar "y"])) : Int))
    ∧ getPath (.array .scalar) (.folded (.varr [.scalar "x", .scalar "y"])) [.idx 3]
        = .ok (none, .folded (.varr [.scalar "x", .scalar "y"])) :=
  ⟨by decide, c6_amended .scalar (.folded (.varr [.scalar "x", .scalar "y"])) 3 (by decide)⟩

/-- C7: for the record type with attribute sheila dropped, get of
"sheila" always fails NoSuchAttribute whatever the state of the node;
construct accepts exactly the live-attribute count (two for ntab1) in
logical order; the dropped slot appears in no read and not in the
flattened printed form. -/
theorem c7_dropped_attribute :
    (∀ n : PNode, getPath ntab1d n [.name "sheila"] = .error .NoSuchAttribute)
    ∧ (∀ args : List Value, exceptOk (construct ntab1d args) = true → args.length = 2)
    ∧ construct ntab1d [.scalar "3", .scalar "4"]
        = .ok (.deformed .krec [.leaf (.scalar "3"), .folded placeholder, .leaf (.scalar "4")])
    ∧ printValue ntab1d (flatten (.deformed .krec
        [.leaf (.scalar "3"), .folded placeholder, .leaf (.scalar "4")])) = "(3,4)" := by
  refine ⟨fun n => rfl, ?_, rfl, rfl⟩
  intro args h
  cases args with
  | nil => simp [ntab1d, construct, constructSlots, exceptOk] at h
  | cons a args =>
    cases args with
    | nil => cases a <;> simp [ntab1d, construct, constructSlots, compatible, exceptOk] at h
    | cons b args =>
      cases args with
      | nil => rfl
      | cons c args =>
          cases a <;> cases b <;>
            simp [ntab1d, construct, constructSlots, compatible, exceptOk] at h

/-- Closed instance of C7 at concrete inputs. -/
theorem c7_dropped_attribute_witness :
    getPath ntab1d (.folded (pair "1" "2")) [.name "sheila"] = .error .NoSuchAttribute
    ∧ [Value.scalar "3", Value.scalar "4"].length = 2 :=
  ⟨c7_dropped_attribute.1 (.folded (pair "1" "2")),
   c7_dropped_attribute.2.1 [.scalar "3", .scalar "4"] rfl⟩

/-- C8: writes made through separate accesses of the same field (the
transcript explode-from-middle block: col3.foo, col1.fred, then
col3.baz.wotsit.jim and col3.baz.wotsit.fred) all accumulate in the one
child and are all visible together in the next flatten; and a repeated
get of the same record field on the materialized node returns the same
child again, leaving the node unchanged. -/
theorem c8_shared_child :
    (setChain ntype4d (setChain ntype4d (setChain ntype4d (setChain ntype4d
        (.ok (.folded r0v))
        [.name "col3", .name "foo"] (.scalar "edcba"))
        [.name "col1", .name "fred"] (.scalar "-1"))
        [.name "col3", .name "baz", .name "wotsit", .name "jim"] (.scalar "80"))
        [.name "col3", .name "baz", .name "wotsit", .name "fred"] (.scalar "0")).map flatten
      = .ok r8v
    ∧ printValue ntype4d r8v = line108
    ∧ (match getPath ntype4d (.folded r0v) [.name "col3", .name "foo"] with
       | .error e => .error e
       | .ok (_, n1) => getPath ntype4d n1 [.name "col3", .name "foo"])
      = getPath ntype4d (.folded r0v) [.name "col3", .name "foo"] :=
  ⟨rfl, rfl, rfl⟩

/-- C9: the sandboxed load wrapper forwards the string "t" as the mode
argument to the global load regardless of any caller-supplied mode, and
when the caller passes fewer than four arguments the environment
argument forwarded is the trusted sandbox table. -/
theorem c9_load_forces_text_mode (sandbox : LV) (args : List LV) :
    (pllua_t_load sandbox args).get? 2 = some (.vstr "t")
    ∧ (args.length < 4 → (pllua_t_load sandbox args).get? 3 = some sandbox) := by
  match args with
  | [] => exact ⟨rfl, fun _ => rfl⟩
  | [a] => exact ⟨rfl, fun _ => rfl⟩
  | [a, b] => exact ⟨rfl, fun _ => rfl⟩
  | [a, b, c] => exact ⟨rfl, fun _ => rfl⟩
  | a :: b :: c :: d :: rest =>
      constructor
      · simp only [pllua_t_load]
        rw [if_neg (by simp only [List.length_cons]; omega)]
        rfl
      · intro hlen
        simp only [List.length_cons] at hlen
        omega

/-- Closed instance of C9 at a one-argument call. -/
theorem c9_load_forces_text_mode_witness :
    (pllua_t_load (.vtable 0) [.vstr "chunk"]).get? 2 = some (LV.vstr "t")
    ∧ (pllua_t_load (.vtable 0) [.vstr "chunk"]).get? 3 = some (LV.vtable 0) :=
  ⟨(c9_load_forces_text_mode (.vtable 0) [.vstr "chunk"]).1,
   (c9_load_forces_text_mode (.vtable 0) [.vstr "chunk"]).2 (by decide)⟩

/-- Writing into an association-list table then reading the same key
gives back the written value. -/
theorem tget_tset : ∀ (t : List (String × LV)) (k : String) (v : LV),
    tget (tset t k v) k = v
  | [], k, v => by simp [tset, tget]
  | (k', v') :: rest, k, v => by
      by_cases hk : k' = k
      · simp [tset, tget, hk]
      · simp only [tset, if_neg hk, tget]
        exact tget_tset rest k v

/-- A loader that returns false: its result is cached but falsy. -/
def falseLoader : String → LV := fun _ => .vbool false

/-- C10 counterexample: when the loader returns false, the first require
stores false in LOADED[name], yet a second require runs the loader
machinery again (loaderRan = true), contradicting the claim that the
second require returns the cached value without re-running the loader. -/
theorem c10_counterexample :
    (pllua_t_require [] falseLoader "m").loaded = [("m", LV.vbool false)]
    ∧ (pllua_t_require (pllua_t_require [] falseLoader "m").loaded
         falseLoader "m").loaderRan = true :=
  ⟨rfl, rfl⟩

/-- C10 amended: if LOADED[name] is truthy, require returns it without
running any searcher or loader; otherwise the loader result (nil
replaced by true) is stored in LOADED[name] and returned, and — provided
that stored value is truthy, i.e. the loader did not return false — a
second require returns the identical cached value without re-running the
loader. -/
theorem c10_require_caching (loaded : List (String × LV)) (loader : String → LV)
    (name : String) :
    (truthy (tget loaded name) = true →
        pllua_t_require loaded loader name = ⟨tget loaded name, loaded, false⟩)
    ∧ (truthy (tget loaded name) = false →
        tget (pllua_t_require loaded loader name).loaded name
            = (pllua_t_require loaded loader name).ret
        ∧ (pllua_t_require loaded loader name).ret
            = (if loader name = .vnil then .vbool true else loader name)
        ∧ (pllua_t_require loaded loader name).loaderRan = true
        ∧ (truthy (pllua_t_require loaded loader name).ret = true →
            pllua_t_require (pllua_t_require loaded loader name).loaded loader name
              = ⟨(pllua_t_require loaded loader name).ret,
                 (pllua_t_require loaded loader name).loaded, false⟩)) := by
  constructor
  · intro h
    simp [pllua_t_require, h]
  · intro h
    refine ⟨?_, ?_, ?_, ?_⟩
    · simp [pllua_t_require, h, tget_tset]
    · simp [pllua_t_require, h]
    · simp [pllua_t_require, h]
    · intro ht
      simp only [pllua_t_require, h, Bool.false_eq_true, if_false] at ht ⊢
      simp only [tget_tset]
      rw [if_pos ht]

/-- A loader that returns a module table. -/
def tableLoader : String → LV := fun _ => .vtable 7

/-- Closed instance of C10 amended at a table-returning loader. -/
theorem c10_require_caching_witness :
    truthy (tget ([] : List (String × LV)) "m") = false
    ∧ tget (pllua_t_require [] tableLoader "m").loaded "m"
        = (pllua_t_require [] tableLoader "m").ret
    ∧ truthy (pllua_t_require [] tableLoader "m").ret = true
    ∧ pllua_t_require (pllua_t_require [] tableLoader "m").loaded tableLoader "m"
        = ⟨(pllua_t_require [] tableLoader "m").ret,
           (pllua_t_require [] tableLoader "m").loaded, false⟩ :=
  ⟨rfl, ((c10_require_caching [] tableLoader "m").2 rfl).1, rfl,
   ((c10_require_caching [] tableLoader "m").2 rfl).2.2.2 rfl⟩

end Pllua

